import Mathlib

/-
Verification of the EvoRide campus-shuttle matching core against its
design specification.  The repository's observable sources are the Vue
front end (RequestPage, QueryPage, ResultPage, router) and start scripts;
the backend core (travel-time model, request store, genetic matching
engine, cycle scheduler, result projection, delete handler) is exercised
by those callers but its code is not available, so it is modelled here
from the specification and checked against the contracts the spec states.
-/

namespace EvoRide

/-- Request lifecycle status: pending, matched, expired. -/
inductive Status
  | pending
  | matched
  | expired
deriving DecidableEq, Repr, Inhabited

/-- Data attached to a request once it is matched into a trip:
pickup time, arrival time and the trip reference. -/
structure MatchInfo where
  pickup_time : Int
  arrive_time : Int
  trip_id : String
deriving DecidableEq, Repr, Inhabited

/-- A passenger booking request as kept by the request store.
Times are minutes (integers).  `matchInfo` is populated exactly when the
scheduler commits the request into a trip. -/
structure BookingRequest where
  passenger_id : String
  origin : String
  destination : String
  earliest_arrival : Int
  latest_arrival : Int
  created_at : Int
  status : Status
  matchInfo : Option MatchInfo
deriving DecidableEq, Repr, Inhabited

/-- The fixed set of campus locations offered by the request form
(RequestPage.vue, `allLocations`). -/
def allLocations : List String :=
  [ "Jesse Owens Recreation Center South"
  , "Ohio State University Adventure Recreation Center"
  , "Morrill Tower"
  , "Drackett Tower"
  , "Fisher Hall"
  , "Thompson Library"
  , "18th Avenue Library"
  , "Jennings Hall"
  , "Ohio Union"
  , "The City Apartment"
  , "Essex Apartment"
  , "Easton Town Center"
  , "John Glenn Columbus International Airport"
  , "Target(1717 Olentangy River Rd)" ]

/-- Modelled from the spec: the Location & Travel-Time Model (backend code
absent from the sources).  A fixed enumerable set of named stops together
with a pairwise travel-time lookup returning non-negative durations
(minutes, `Nat`); asymmetric values are permitted since `time` is an
arbitrary function of the ordered pair. -/
structure TravelModel where
  locs : List String
  time : String → String → Nat

/-- Error raised by the travel-time lookup for names outside the fixed set. -/
inductive TTError
  | unknownLocation
deriving DecidableEq, Repr

/-- Modelled from the spec: `time_between(origin, destination) -> Duration`,
deterministic and side-effect free, failing with `UnknownLocation` when
either argument is not in the fixed set (backend route-time handler absent
from the sources; the front end calls it via GET /route_time). -/
def time_between (m : TravelModel) (a b : String) : Except TTError Nat :=
  if a ∈ m.locs ∧ b ∈ m.locs then .ok (m.time a b) else .error .unknownLocation

/-- A concrete travel-time model over the fixed location list, used to
instantiate witnesses. -/
def osuModel : TravelModel :=
  { locs := allLocations, time := fun _ _ => 15 }

/-- A tiny model whose travel times are direction dependent, witnessing
that the contract permits asymmetric durations. -/
def asymModel : TravelModel :=
  { locs := ["A", "B"], time := fun a _ => if a = "A" then 10 else 20 }

/-- Signals raised by the intake-validation layer. -/
inductive SubmitError
  | invalid_route
  | invalid_time_range
  | already_submitted
deriving DecidableEq, Repr

/-- The fields of a submission form (RequestPage.vue `formData`), plus the
submission clock used for `created_at`. -/
structure SubmitForm where
  uid : String
  origin : String
  destination : String
  earliest_arrival : Int
  latest_arrival : Int
  now : Int
deriving DecidableEq, Repr

/-- The fresh pending record created from a valid submission. -/
def mkRecord (f : SubmitForm) : BookingRequest :=
  { passenger_id := f.uid
  , origin := f.origin
  , destination := f.destination
  , earliest_arrival := f.earliest_arrival
  , latest_arrival := f.latest_arrival
  , created_at := f.now
  , status := .pending
  , matchInfo := none }

/-- Whether the passenger already has an active (pending or matched)
request in the store. -/
def hasActive (store : List BookingRequest) (pid : String) : Bool :=
  store.any fun r =>
    r.passenger_id = pid ∧ (r.status = .pending ∨ r.status = .matched)

/-- Modelled from the spec: the intake-validation layer in front of the
request store (backend /match handler absent from the sources; the front
end interprets its error codes `invalid_route`, `invalid_time_range`,
`already_submitted` and itself rejects origin = destination).  A record
reaches the pending store only after passing route, window and
duplicate-submission validation. -/
def submit (m : TravelModel) (store : List BookingRequest) (f : SubmitForm) :
    Except SubmitError (List BookingRequest) :=
  if f.origin = f.destination ∨ f.origin ∉ m.locs ∨ f.destination ∉ m.locs then
    .error .invalid_route
  else if ¬ f.earliest_arrival < f.latest_arrival then
    .error .invalid_time_range
  else if hasActive store f.uid then
    .error .already_submitted
  else
    .ok (store ++ [mkRecord f])

/-- The query-facing shape of one request (QueryPage / ResultPage result
cards): status plus, for matched records, pickup/arrival times and the
trip reference. -/
structure RequestView where
  origin : String
  destination : String
  earliest_arrival : Int
  latest_arrival : Int
  created_at : Int
  matched : Bool
  pickup_time : Option Int
  arrive_time : Option Int
  trip_id : Option String
deriving DecidableEq, Repr

/-- Projection of a stored record into its query-facing view. -/
def viewOf (r : BookingRequest) : RequestView :=
  { origin := r.origin
  , destination := r.destination
  , earliest_arrival := r.earliest_arrival
  , latest_arrival := r.latest_arrival
  , created_at := r.created_at
  , matched := r.status = .matched
  , pickup_time := r.matchInfo.map (·.pickup_time)
  , arrive_time := r.matchInfo.map (·.arrive_time)
  , trip_id := r.matchInfo.map (·.trip_id) }

/-- Modelled from the spec: the read-only Result Projection
`get_requests(passenger_id)` (backend /result/<uid> handler absent from
the sources).  Walks the store and renders every request of the given
passenger, in store order, without mutating anything. -/
def get_requests : List BookingRequest → String → List RequestView
  | [], _ => []
  | r :: rest, pid =>
    if r.passenger_id = pid then viewOf r :: get_requests rest pid
    else get_requests rest pid

/-- A store is well formed when match data is present exactly on matched
records. -/
def wellFormed (store : List BookingRequest) : Bool :=
  store.all fun r => (r.status = .matched ↔ r.matchInfo.isSome = true)

/-- Outcome of the external delete operation. -/
inductive DeleteOutcome
  | deleted
  | invalid_state
  | not_found
deriving DecidableEq, Repr

/-- Modelled from the spec: `delete(passenger_id, request_index)` (backend
DELETE /request handler absent from the sources).  Locates the
`request_index`-th record of the passenger; removes it when its status is
`matched`, otherwise rejects with `invalid_state` and returns the store
unchanged. -/
def deleteReq : List BookingRequest → String → Nat → DeleteOutcome × List BookingRequest
  | [], _, _ => (.not_found, [])
  | a :: rest, pid, idx =>
    if a.passenger_id = pid then
      match idx with
      | 0 =>
        if a.status = .matched then (.deleted, rest)
        else (.invalid_state, a :: rest)
      | n + 1 =>
        let p := deleteReq rest pid n
        (p.1, a :: p.2)
    else
      let p := deleteReq rest pid idx
      (p.1, a :: p.2)

/-- The QueryPage delete handler (part_000, `deleteRequest`): issues
DELETE to `/request/<uid>` — the URL is built from the account id alone —
and locally splices the clicked entry out of the displayed list. -/
def deleteRequestAction (uid : String) (results : List RequestView) (index : Nat) :
    String × List RequestView :=
  ("http://127.0.0.1:5001/request/" ++ uid, results.eraseIdx index)

/-! ### Matching Engine (genetic algorithm), modelled from the spec -/

/-- Fixed per-stop dwell time (minutes) used when laying a group out as a
stop sequence. -/
def dwellTime : Nat := 1

/-- Fitness weight: cost per vehicle (trip) used. -/
def vehicleWeight : Int := 100

/-- Fitness weight: cost per minute of consumed passenger slack. -/
def waitWeight : Int := 1

/-- Fitness weight: large penalty per infeasible or unassigned passenger. -/
def penaltyWeight : Int := 100000

/-- Generation ceiling of the search: the deterministic bound on the
number of generations a cycle may run. -/
def generationCeiling : Nat := 10

/-- Early-stopping patience: generations without fitness improvement
after which the search stops. -/
def patience : Nat := 3

/-- A candidate solution (chromosome): a partition of the snapshot into
ordered groups, each group to be served by one trip. -/
abbrev Candidate := List (List BookingRequest)

/-- The stop sequence of a group: all pickups in group order, then all
dropoffs in group order. -/
def groupStops (g : List BookingRequest) : List String :=
  g.map (·.origin) ++ g.map (·.destination)

/-- Cumulative arrival offsets along a stop sequence: each further stop
adds the travel time from the previous stop plus the fixed dwell time. -/
def cumOffsetsGo (m : TravelModel) (prev : String) (rest : List String) (acc : Int) :
    List Int :=
  match rest with
  | [] => [acc]
  | t :: rest => acc :: cumOffsetsGo m t rest (acc + (m.time prev t : Int) + (dwellTime : Int))

/-- Arrival offset (relative to trip start) of every stop in a sequence. -/
def cumOffsets (m : TravelModel) : List String → List Int
  | [] => []
  | s :: rest => cumOffsetsGo m s rest 0

/-- Offset at which each passenger of the group is picked up. -/
def pickupOffsets (m : TravelModel) (g : List BookingRequest) : List Int :=
  (cumOffsets m (groupStops g)).take g.length

/-- Offset at which each passenger of the group arrives at their
destination. -/
def destOffsets (m : TravelModel) (g : List BookingRequest) : List Int :=
  (cumOffsets m (groupStops g)).drop g.length

/-- Departure time chosen for a group: the latest start that still makes
every passenger arrive no earlier than their `earliest_arrival` (never
before time zero). -/
def startTime (m : TravelModel) (g : List BookingRequest) : Int :=
  (((g.zip (destOffsets m g)).map fun p => p.1.earliest_arrival - p.2).foldr max 0)

/-- Absolute arrival time of each passenger of the group. -/
def arriveTimes (m : TravelModel) (g : List BookingRequest) : List Int :=
  (destOffsets m g).map (startTime m g + ·)

/-- Absolute pickup time of each passenger of the group. -/
def pickupTimes (m : TravelModel) (g : List BookingRequest) : List Int :=
  (pickupOffsets m g).map (startTime m g + ·)

/-- Modelled from the spec: a group is feasible when, laid out as a stop
sequence with cumulative travel and dwell times, every passenger's
computed arrival falls within their requested window. -/
def feasibleGroup (m : TravelModel) (g : List BookingRequest) : Bool :=
  !g.isEmpty && (g.zip (arriveTimes m g)).all fun p => p.2 ≤ p.1.latest_arrival

/-- Total slack consumed by a group's passengers (arrival minus earliest
acceptable arrival). -/
def groupWait (m : TravelModel) (g : List BookingRequest) : Int :=
  ((g.zip (arriveTimes m g)).map fun p => p.2 - p.1.earliest_arrival).sum

/-- Cost of one group: a vehicle cost plus waiting for feasible groups, a
large per-passenger penalty for infeasible ones; empty groups are free. -/
def groupCost (m : TravelModel) (g : List BookingRequest) : Int :=
  if g.isEmpty then 0
  else if feasibleGroup m g then vehicleWeight + waitWeight * groupWait m g
  else penaltyWeight * g.length

/-- Modelled from the spec: scalar fitness of a candidate — weighted sum
of vehicle count, passenger wait and a large penalty per
infeasible/unassigned passenger of the snapshot.  Lower is better. -/
def fitness (m : TravelModel) (S : List BookingRequest) (c : Candidate) : Int :=
  (c.map (groupCost m)).sum
    + penaltyWeight * ((S.filter fun r => !decide (r ∈ c.flatten)).length : Int)

/-- Explicit pseudo-random source threaded through the genetic operators
(linear congruential step). -/
def lcg (s : Nat) : Nat := (s * 1103515245 + 12345) % 2147483648

/-- Mutation: move one passenger to another (possibly new) group. -/
def moveOne (seed : Nat) (c : Candidate) : Candidate :=
  match c with
  | [] => []
  | _ =>
    let gi := seed % c.length
    let g := c.getD gi []
    match g with
    | [] => c
    | _ =>
      let pi := lcg seed % g.length
      let r := g.getD pi default
      let base := c.set gi (g.eraseIdx pi)
      let gj := lcg (lcg seed) % (base.length + 1)
      if gj < base.length then base.set gj (base.getD gj [] ++ [r])
      else base ++ [[r]]

/-- Mutation: split one group at its midpoint. -/
def splitGroup (seed : Nat) (c : Candidate) : Candidate :=
  match c with
  | [] => []
  | _ =>
    let gi := seed % c.length
    let g := c.getD gi []
    if g.length ≤ 1 then c
    else (c.set gi (g.take (g.length / 2))) ++ [g.drop (g.length / 2)]

/-- Mutation: reorder the stops of one group by rotating its members. -/
def reorderGroup (seed : Nat) (c : Candidate) : Candidate :=
  match c with
  | [] => []
  | _ =>
    let gi := seed % c.length
    c.set gi ((c.getD gi []).rotateLeft 1)

/-- Modelled from the spec: mutation operator — move one passenger
between groups, split a group or reorder stops within a group, chosen by
the threaded pseudo-random seed. -/
def mutate (seed : Nat) (c : Candidate) : Candidate :=
  match seed % 3 with
  | 0 => moveOne (lcg seed) c
  | 1 => splitGroup (lcg seed) c
  | _ => reorderGroup (lcg seed) c

/-- Merge adjacent groups whenever the merged group stays feasible;
infeasible merges fall back to keeping the groups separate. -/
def tryMergeAdj (m : TravelModel) : Candidate → Candidate
  | g1 :: g2 :: rest =>
    if feasibleGroup m (g1 ++ g2) then (g1 ++ g2) :: tryMergeAdj m rest
    else g1 :: tryMergeAdj m (g2 :: rest)
  | c => c

/-- Modelled from the spec: crossover — recombine two parents by taking
the first parent's groups plus the second parent's passengers not already
covered, then re-validate merges under the time-window constraint. -/
def crossover (m : TravelModel) (a b : Candidate) : Candidate :=
  let aPids := a.flatten.map (·.passenger_id)
  let bRest := b.map fun g => g.filter fun r => !aPids.contains r.passenger_id
  tryMergeAdj m (a ++ bRest)

/-- Tournament selection: sample two candidates by seed, keep the one
with lower cost. -/
def tournament (m : TravelModel) (S : List BookingRequest) (seed : Nat)
    (pop : List Candidate) : Candidate :=
  match pop with
  | [] => []
  | _ =>
    let a := pop.getD (seed % pop.length) []
    let b := pop.getD (lcg seed % pop.length) []
    if fitness m S a ≤ fitness m S b then a else b

/-- Lowest-cost candidate of a population, ties resolved towards the
earlier (stable) entry. -/
def bestOf (m : TravelModel) (S : List BookingRequest) (pop : List Candidate)
    (dflt : Candidate) : Candidate :=
  pop.foldl (fun acc c => if fitness m S c < fitness m S acc then c else acc) dflt

/-- One generation: tournament selection, crossover, mutation, with the
best-so-far candidate carried over unchanged (elitism). -/
def nextGen (m : TravelModel) (S : List BookingRequest) (seed : Nat)
    (pop : List Candidate) (best : Candidate) : List Candidate :=
  let p1 := tournament m S seed pop
  let p2 := tournament m S (lcg seed) pop
  let child := crossover m p1 p2
  let mutant := mutate (lcg (lcg seed)) child
  [best, child, mutant, splitGroup (lcg (lcg (lcg seed))) best]

/-- Greedy seeding: fold each request into the first group that stays
feasible with it appended, else open a new group. -/
def insertGreedy (m : TravelModel) : Candidate → BookingRequest → Candidate
  | [], r => [[r]]
  | g :: rest, r =>
    if feasibleGroup m (g ++ [r]) then (g ++ [r]) :: rest
    else g :: insertGreedy m rest r

/-- Greedy grouping of the snapshot, one of the initial candidates. -/
def greedyPartition (m : TravelModel) (S : List BookingRequest) : Candidate :=
  S.foldl (insertGreedy m) []

/-- Modelled from the spec: initial population — a randomized-greedy
grouping of compatible requests together with the all-singletons
partition. -/
def initialPopulation (m : TravelModel) (S : List BookingRequest) : List Candidate :=
  [greedyPartition m S, S.map fun r => [r]]

/-- Result of the generation loop: final best candidate, generations
actually executed, and whether the early-stopping rule fired. -/
structure GAResult where
  best : Candidate
  gensUsed : Nat
  early : Bool
deriving Repr

/-- Modelled from the spec: the bounded generation loop.  Runs until the
fixed generation budget is exhausted or fitness has not improved for
`patience` generations, whichever comes first; the best-so-far candidate
is carried through every generation. -/
def gaLoop (m : TravelModel) (S : List BookingRequest) :
    Nat → List Candidate → Candidate → Nat → Nat → GAResult
  | 0, _, best, _, _ => ⟨best, 0, false⟩
  | fuel + 1, pop, best, noImp, seed =>
    if noImp ≥ patience then ⟨best, 0, true⟩
    else
      let pop2 := nextGen m S seed pop best
      let cand := bestOf m S pop2 best
      let next :=
        if fitness m S cand < fitness m S best then
          gaLoop m S fuel pop2 cand 0 (lcg seed)
        else
          gaLoop m S fuel pop2 best (noImp + 1) (lcg seed)
      ⟨next.best, next.gensUsed + 1, next.early⟩

/-- A committed shuttle trip: identifier, ordered stops with absolute
arrival times, and the served requests with their computed pickup and
arrival times. -/
structure Trip where
  trip_id : String
  stops : List (String × Int)
  assignments : List (BookingRequest × MatchInfo)
deriving DecidableEq, Repr

/-- Trip identifier derived from the group's lead passenger (unique among
active trips since each passenger has at most one active request). -/
def tripIdOf (g : List BookingRequest) : String :=
  "trip_" ++ (g.headD default).passenger_id

/-- Build the trip serving one feasible group: absolute stop times and a
`MatchInfo` per passenger. -/
def mkTrip (m : TravelModel) (g : List BookingRequest) : Trip :=
  { trip_id := tripIdOf g
  , stops := (groupStops g).zip ((cumOffsets m (groupStops g)).map (startTime m g + ·))
  , assignments :=
      (g.zip ((pickupTimes m g).zip (arriveTimes m g))).map fun p =>
        (p.1, ⟨p.2.1, p.2.2, tripIdOf g⟩) }

/-- Modelled from the spec: the committed groups of the final candidate —
its feasible groups, plus a singleton group for every snapshot passenger
left unassigned whose own window is satisfiable (the spec's contract that
a feasible solo trip is never rejected for lack of companions). -/
def solutionGroups (m : TravelModel) (S : List BookingRequest) (best : Candidate) :
    Candidate :=
  let feas := best.filter fun g => feasibleGroup m g
  let assigned := feas.flatten
  let rest := S.filter fun r => !decide (r ∈ assigned)
  feas ++ (rest.filter fun r => feasibleGroup m [r]).map fun r => [r]

/-- Output of one engine invocation: committed trips, the unmatched
remainder of the snapshot, and loop accounting. -/
structure EngineOutput where
  trips : List Trip
  unmatched : List BookingRequest
  gensUsed : Nat
  early : Bool
deriving Repr

/-- Modelled from the spec: one full engine invocation over an immutable
snapshot `S` of pending requests — seed the population, run the bounded
generation loop, and emit the feasible groups of the best candidate as
trips. -/
def engineRun (m : TravelModel) (seed : Nat) (S : List BookingRequest) : EngineOutput :=
  let pop := initialPopulation m S
  let best0 := bestOf m S pop (pop.headD [])
  let r := gaLoop m S generationCeiling pop best0 0 seed
  let groups := solutionGroups m S r.best
  { trips := groups.map (mkTrip m)
  , unmatched := S.filter fun req => !decide (req ∈ groups.flatten)
  , gensUsed := r.gensUsed
  , early := r.early }

/-! ### Cycle Scheduler, modelled from the spec -/

/-- Result of one scheduler cycle: the updated store and the trips it
committed. -/
structure CycleResult where
  store : List BookingRequest
  committedTrips : List Trip
deriving Repr

/-- Modelled from the spec: the consistent point-in-time snapshot of all
pending requests taken at cycle start. -/
def cycleSnapshot (store : List BookingRequest) : List BookingRequest :=
  store.filter fun r => r.status = .pending

/-- All passenger assignments committed by the trips of one engine
invocation over the cycle's snapshot. -/
def cycleMatches (m : TravelModel) (seed : Nat) (store : List BookingRequest) :
    List (BookingRequest × MatchInfo) :=
  ((engineRun m seed (cycleSnapshot store)).trips.map (·.assignments)).flatten

/-- Per-record commit: a pending request covered by a trip becomes
`matched` and gains the trip's times; an uncovered pending request older
than the unmatched horizon becomes `expired`; matched and expired records
are untouched. -/
def commitOne (matchList : List (BookingRequest × MatchInfo)) (now horizon : Int)
    (r : BookingRequest) : BookingRequest :=
  if r.status = .pending then
    match matchList.find? (fun p => p.1.passenger_id = r.passenger_id) with
    | some p => { r with status := .matched, matchInfo := some p.2 }
    | none =>
      if now - r.created_at > horizon then { r with status := .expired } else r
  else r

/-- Modelled from the spec: one scheduler cycle (scheduler.py absent from
the sources).  Snapshot all pending requests, invoke the engine, then
commit per record; the trips of the invocation are the cycle's committed
trips. -/
def cycleStep (m : TravelModel) (now horizon : Int) (seed : Nat)
    (store : List BookingRequest) : CycleResult :=
  ⟨store.map (commitOne (cycleMatches m seed store) now horizon),
   (engineRun m seed (cycleSnapshot store)).trips⟩

/-- The allowed forward transitions of a request status within one cycle:
pending may go anywhere, matched and expired are terminal. -/
def forwardStep : Status → Status → Bool
  | .pending, _ => true
  | .matched, s => s = .matched
  | .expired, s => s = .expired

/-- Scheduler phases of the cycle state machine. -/
inductive SchedPhase
  | idle
  | running
  | committing
deriving DecidableEq, Repr, Inhabited

/-- Events driving the scheduler state machine: a timer tick, the engine
finishing, the commit finishing. -/
inductive SchedEvent
  | tick
  | engineDone
  | commitDone
deriving DecidableEq, Repr

/-- Scheduler state: current phase and the number of cycles in flight. -/
structure SchedState where
  phase : SchedPhase
  activeCycles : Nat
deriving DecidableEq, Repr

/-- The scheduler starts idle with no cycle in flight. -/
def schedInit : SchedState := ⟨.idle, 0⟩

/-- Modelled from the spec: the scheduler state machine
idle → running → committing → idle.  A tick that fires while a prior
cycle is still in flight is skipped entirely. -/
def schedStep (s : SchedState) : SchedEvent → SchedState
  | .tick =>
    match s.phase with
    | .idle => ⟨.running, s.activeCycles + 1⟩
    | _ => s
  | .engineDone =>
    match s.phase with
    | .running => ⟨.committing, s.activeCycles⟩
    | _ => s
  | .commitDone =>
    match s.phase with
    | .committing => ⟨.idle, s.activeCycles - 1⟩
    | _ => s

/-- State of the scheduler after a sequence of events from start-up. -/
def schedRun (evs : List SchedEvent) : SchedState :=
  evs.foldl schedStep schedInit

/-! ### Helper lemmas -/

theorem mem_zip_map_snd {α β γ : Type} (f : β → γ) :
    ∀ (as : List α) (bs : List β) (p : α × γ), p ∈ as.zip (bs.map f) →
      ∃ b, (p.1, b) ∈ as.zip bs ∧ p.2 = f b := by
  intro as
  induction as with
  | nil => simp
  | cons a as ih =>
    intro bs p hp
    cases bs with
    | nil => simp at hp
    | cons b bs =>
      simp only [List.map_cons, List.zip_cons_cons, List.mem_cons] at hp
      rcases hp with h | h
      · exact ⟨b, by simp [h], by simp [h]⟩
      · obtain ⟨b2, hb, he⟩ := ih bs p h
        exact ⟨b2, by simp [hb], he⟩

theorem mem_zip_zip {α β γ : Type} :
    ∀ (as : List α) (bs : List β) (cs : List γ) (q : α × β × γ),
      q ∈ as.zip (bs.zip cs) → (q.1, q.2.2) ∈ as.zip cs := by
  intro as
  induction as with
  | nil => simp
  | cons a as ih =>
    intro bs cs q hq
    cases bs with
    | nil => simp at hq
    | cons b bs =>
      cases cs with
      | nil => simp at hq
      | cons c cs =>
        simp only [List.zip_cons_cons, List.mem_cons] at hq ⊢
        rcases hq with h | h
        · left; simp [h]
        · right; exact ih bs cs q h

theorem le_foldr_max (l : List Int) (x init : Int) (hx : x ∈ l) :
    x ≤ l.foldr max init := by
  induction l with
  | nil => simp at hx
  | cons y l ih =>
    rcases List.mem_cons.1 hx with h | h
    · rw [h]; exact le_max_left _ _
    · exact le_trans (ih h) (le_max_right _ _)

theorem exists_zip_of_mem {α β : Type} :
    ∀ (as : List α) (bs : List β) (a : α), a ∈ as → as.length = bs.length →
      ∃ b, (a, b) ∈ as.zip bs := by
  intro as
  induction as with
  | nil => simp
  | cons x as ih =>
    intro bs a ha hl
    cases bs with
    | nil => simp at hl
    | cons b bs =>
      rcases List.mem_cons.1 ha with h | h
      · exact ⟨b, by simp [h]⟩
      · obtain ⟨b2, hb⟩ := ih bs a h (by simpa using hl)
        exact ⟨b2, by simp [hb]⟩

theorem length_cumOffsetsGo (m : TravelModel) :
    ∀ (rest : List String) (prev : String) (acc : Int),
      (cumOffsetsGo m prev rest acc).length = rest.length + 1 := by
  intro rest
  induction rest with
  | nil => intro prev acc; simp [cumOffsetsGo]
  | cons t ts ih => intro prev acc; simp [cumOffsetsGo, ih]

theorem length_cumOffsets (m : TravelModel) (stops : List String) :
    (cumOffsets m stops).length = stops.length := by
  cases stops with
  | nil => simp [cumOffsets]
  | cons s rest => simp [cumOffsets, length_cumOffsetsGo]

theorem length_groupStops (g : List BookingRequest) :
    (groupStops g).length = g.length + g.length := by
  simp [groupStops]

theorem length_destOffsets (m : TravelModel) (g : List BookingRequest) :
    (destOffsets m g).length = g.length := by
  simp [destOffsets, length_cumOffsets, length_groupStops]

theorem length_pickupOffsets (m : TravelModel) (g : List BookingRequest) :
    (pickupOffsets m g).length = g.length := by
  simp [pickupOffsets, length_cumOffsets, length_groupStops]

theorem length_arriveTimes (m : TravelModel) (g : List BookingRequest) :
    (arriveTimes m g).length = g.length := by
  simp [arriveTimes, length_destOffsets]

theorem length_pickupTimes (m : TravelModel) (g : List BookingRequest) :
    (pickupTimes m g).length = g.length := by
  simp [pickupTimes, length_pickupOffsets]

theorem feasible_window (m : TravelModel) (g : List BookingRequest)
    (hf : feasibleGroup m g = true) :
    ∀ p ∈ g.zip (arriveTimes m g),
      p.1.earliest_arrival ≤ p.2 ∧ p.2 ≤ p.1.latest_arrival := by
  intro p hp
  constructor
  · have hp2 : p ∈ g.zip ((destOffsets m g).map (startTime m g + ·)) := by
      simpa [arriveTimes] using hp
    obtain ⟨o, ho, he⟩ := mem_zip_map_snd _ g (destOffsets m g) p hp2
    have hmem : p.1.earliest_arrival - o ∈
        ((g.zip (destOffsets m g)).map fun q => q.1.earliest_arrival - q.2) :=
      List.mem_map.2 ⟨(p.1, o), ho, rfl⟩
    have hle : p.1.earliest_arrival - o ≤ startTime m g :=
      le_foldr_max _ _ _ hmem
    omega
  · simp only [feasibleGroup, Bool.and_eq_true] at hf
    have := List.all_eq_true.1 hf.2 p hp
    simpa using this

theorem solutionGroups_feasible (m : TravelModel) (S : List BookingRequest)
    (best : Candidate) :
    ∀ g ∈ solutionGroups m S best, feasibleGroup m g = true := by
  intro g hg
  unfold solutionGroups at hg
  rcases List.mem_append.1 hg with h | h
  · exact (List.mem_filter.1 h).2
  · obtain ⟨r, hr, rfl⟩ := List.mem_map.1 h
    exact (List.mem_filter.1 hr).2

theorem mkTrip_assignments_window (m : TravelModel) (g : List BookingRequest)
    (hf : feasibleGroup m g = true) :
    ∀ p ∈ (mkTrip m g).assignments,
      p.1.earliest_arrival ≤ p.2.arrive_time ∧ p.2.arrive_time ≤ p.1.latest_arrival := by
  intro p hp
  simp only [mkTrip, List.mem_map] at hp
  obtain ⟨q, hq, rfl⟩ := hp
  have hmem : (q.1, q.2.2) ∈ g.zip (arriveTimes m g) := mem_zip_zip _ _ _ _ hq
  simpa using feasible_window m g hf _ hmem

theorem engineRun_trips_eq (m : TravelModel) (seed : Nat) (S : List BookingRequest) :
    (engineRun m seed S).trips =
      (solutionGroups m S
        (gaLoop m S generationCeiling (initialPopulation m S)
          (bestOf m S (initialPopulation m S) ((initialPopulation m S).headD []))
          0 seed).best).map (mkTrip m) := rfl

theorem engineRun_trips_window (m : TravelModel) (seed : Nat)
    (S : List BookingRequest) :
    ∀ t ∈ (engineRun m seed S).trips, ∀ p ∈ t.assignments,
      p.1.earliest_arrival ≤ p.2.arrive_time ∧ p.2.arrive_time ≤ p.1.latest_arrival := by
  intro t ht p hp
  rw [engineRun_trips_eq] at ht
  obtain ⟨g, hg, rfl⟩ := List.mem_map.1 ht
  exact mkTrip_assignments_window m g (solutionGroups_feasible _ _ _ g hg) p hp

theorem solutionGroups_covers_feasible_solo (m : TravelModel)
    (S : List BookingRequest) (best : Candidate) (r : BookingRequest)
    (hr : r ∈ S) (hf : feasibleGroup m [r] = true) :
    ∃ g ∈ solutionGroups m S best, r ∈ g := by
  by_cases hc : r ∈ (best.filter fun g => feasibleGroup m g).flatten
  · obtain ⟨g, hg, hrg⟩ := List.mem_flatten.1 hc
    exact ⟨g, List.mem_append_left _ hg, hrg⟩
  · refine ⟨[r], List.mem_append_right _ ?_, by simp⟩
    refine List.mem_map.2 ⟨r, ?_, rfl⟩
    refine List.mem_filter.2 ⟨List.mem_filter.2 ⟨hr, by simpa using hc⟩, hf⟩

theorem engineRun_matches_solo (m : TravelModel) (seed : Nat) (r : BookingRequest)
    (hf : feasibleGroup m [r] = true) :
    ∃ t ∈ (engineRun m seed [r]).trips, ∃ p ∈ t.assignments, p.1 = r := by
  obtain ⟨g, hg, hrg⟩ :=
    solutionGroups_covers_feasible_solo m [r]
      (gaLoop m [r] generationCeiling (initialPopulation m [r])
        (bestOf m [r] (initialPopulation m [r]) ((initialPopulation m [r]).headD []))
        0 seed).best r (by simp) hf
  refine ⟨mkTrip m g, ?_, ?_⟩
  · rw [engineRun_trips_eq]
    exact List.mem_map.2 ⟨g, hg, rfl⟩
  · have hlen : g.length = ((pickupTimes m g).zip (arriveTimes m g)).length := by
      simp [List.length_zip, length_pickupTimes, length_arriveTimes]
    obtain ⟨b, hb⟩ := exists_zip_of_mem g _ r hrg hlen
    exact ⟨(r, ⟨b.1, b.2, tripIdOf g⟩),
      List.mem_map.2 ⟨(r, b), hb, rfl⟩, rfl⟩

theorem gaLoop_bound (m : TravelModel) (S : List BookingRequest) :
    ∀ (fuel : Nat) (pop : List Candidate) (best : Candidate) (noImp seed : Nat),
      (gaLoop m S fuel pop best noImp seed).gensUsed ≤ fuel
      ∧ ((gaLoop m S fuel pop best noImp seed).gensUsed = fuel
          ∨ (gaLoop m S fuel pop best noImp seed).early = true) := by
  intro fuel
  induction fuel with
  | zero => intro pop best noImp seed; simp [gaLoop]
  | succ n ih =>
    intro pop best noImp seed
    by_cases h : noImp ≥ patience
    · simp [gaLoop, h]
    · simp only [gaLoop, if_neg h]
      by_cases hc :
          fitness m S (bestOf m S (nextGen m S seed pop best) best) < fitness m S best
      · simp only [if_pos hc]
        obtain ⟨h1, h2⟩ := ih (nextGen m S seed pop best)
          (bestOf m S (nextGen m S seed pop best) best) 0 (lcg seed)
        refine ⟨by omega, ?_⟩
        rcases h2 with h2 | h2
        · left; omega
        · right; exact h2
      · simp only [if_neg hc]
        obtain ⟨h1, h2⟩ := ih (nextGen m S seed pop best) best (noImp + 1) (lcg seed)
        refine ⟨by omega, ?_⟩
        rcases h2 with h2 | h2
        · left; omega
        · right; exact h2

theorem commitOne_forward (ml : List (BookingRequest × MatchInfo))
    (now horizon : Int) (r : BookingRequest) :
    forwardStep r.status (commitOne ml now horizon r).status = true := by
  unfold commitOne
  cases hs : r.status with
  | pending =>
    simp only [hs, if_pos rfl]
    cases ml.find? (fun p => p.1.passenger_id = r.passenger_id) with
    | none =>
      by_cases h : now - r.created_at > horizon <;> simp [h, forwardStep]
    | some p => simp [forwardStep]
  | matched => simp [hs, forwardStep]
  | expired => simp [hs, forwardStep]

/-- The scheduler invariant: exactly one cycle is in flight while the
phase is not idle, none otherwise. -/
def SchedInv (s : SchedState) : Prop :=
  s.activeCycles = if s.phase = .idle then 0 else 1

theorem schedStep_inv (s : SchedState) (e : SchedEvent) (h : SchedInv s) :
    SchedInv (schedStep s e) := by
  obtain ⟨ph, n⟩ := s
  cases e <;> cases ph <;>
    simp [SchedInv, schedStep] at h ⊢ <;> omega

theorem schedRun_inv (evs : List SchedEvent) : SchedInv (schedRun evs) := by
  have hgen : ∀ (l : List SchedEvent) (s : SchedState), SchedInv s →
      SchedInv (l.foldl schedStep s) := by
    intro l
    induction l with
    | nil => intro s h; exact h
    | cons e l ih => intro s h; exact ih _ (schedStep_inv s e h)
  exact hgen evs schedInit (by simp [SchedInv, schedInit])

theorem schedStep_tick_skip (s : SchedState) (h : s.phase ≠ .idle) :
    schedStep s .tick = s := by
  obtain ⟨ph, n⟩ := s
  cases ph with
  | idle => exact absurd rfl h
  | running => rfl
  | committing => rfl

theorem deleteReq_rejected_unchanged :
    ∀ (store : List BookingRequest) (pid : String) (idx : Nat),
      (deleteReq store pid idx).1 ≠ .deleted → (deleteReq store pid idx).2 = store := by
  intro store
  induction store with
  | nil => intro pid idx _; rfl
  | cons a rest ih =>
    intro pid idx h
    by_cases hp : a.passenger_id = pid
    · cases idx with
      | zero =>
        by_cases hm : a.status = .matched
        · exact absurd (by simp [deleteReq, hp, hm]) h
        · simp [deleteReq, hp, hm]
      | succ n =>
        simp only [deleteReq, if_pos hp] at h ⊢
        rw [ih pid n h]
    · simp only [deleteReq, if_neg hp] at h ⊢
      rw [ih pid idx h]

theorem deleteReq_core (pid : String) :
    ∀ (store : List BookingRequest) (idx : Nat) (r : BookingRequest),
      (store.filter fun x => x.passenger_id = pid)[idx]? = some r →
      ((deleteReq store pid idx).1 = .deleted ↔ r.status = .matched)
      ∧ (r.status ≠ .matched → (deleteReq store pid idx).1 = .invalid_state)
      ∧ (r.status = .matched →
          ((deleteReq store pid idx).2.filter fun x => x.passenger_id = pid)
            = ((store.filter fun x => x.passenger_id = pid).eraseIdx idx)) := by
  intro store
  induction store with
  | nil => intro idx r h; simp at h
  | cons a rest ih =>
    intro idx r h
    by_cases hp : a.passenger_id = pid
    · rw [List.filter_cons_of_pos (by simp [hp])] at h
      cases idx with
      | zero =>
        rw [List.getElem?_cons_zero, Option.some_inj] at h
        subst h
        by_cases hm : a.status = .matched
        · refine ⟨by simp [deleteReq, hp, hm], fun hc => absurd hm hc, fun _ => ?_⟩
          simp [deleteReq, hp, hm, List.filter_cons]
        · refine ⟨?_, fun _ => by simp [deleteReq, hp, hm], fun hc => absurd hc hm⟩
          simp [deleteReq, hp, hm]
      | succ n =>
        rw [List.getElem?_cons_succ] at h
        obtain ⟨h1, h2, h3⟩ := ih n r h
        refine ⟨?_, ?_, ?_⟩
        · simpa [deleteReq, hp] using h1
        · intro hm; simpa [deleteReq, hp] using h2 hm
        · intro hm
          simp only [deleteReq, if_pos hp]
          rw [List.filter_cons_of_pos (by simp [hp]),
            List.filter_cons_of_pos (by simp [hp]), List.eraseIdx_cons_succ]
          rw [h3 hm]
    · rw [List.filter_cons_of_neg (by simp [hp])] at h
      obtain ⟨h1, h2, h3⟩ := ih idx r h
      refine ⟨?_, ?_, ?_⟩
      · simpa [deleteReq, hp] using h1
      · intro hm; simpa [deleteReq, hp] using h2 hm
      · intro hm
        simp only [deleteReq, if_neg hp]
        rw [List.filter_cons_of_neg (by simp [hp]), List.filter_cons_of_neg (by simp [hp])]
        exact h3 hm

theorem get_requests_eq_filter_map (store : List BookingRequest) (pid : String) :
    get_requests store pid =
      (store.filter fun r => r.passenger_id = pid).map viewOf := by
  induction store with
  | nil => rfl
  | cons a rest ih =>
    by_cases hp : a.passenger_id = pid
    · rw [List.filter_cons_of_pos (by simp [hp])]
      simp [get_requests, hp, ih]
    · rw [List.filter_cons_of_neg (by simp [hp])]
      simp [get_requests, hp, ih]

/-- A concrete matched record used to instantiate witnesses. -/
def sampleMatched : BookingRequest :=
  { passenger_id := "wang.18894"
  , origin := "Thompson Library"
  , destination := "Ohio Union"
  , earliest_arrival := 480
  , latest_arrival := 510
  , created_at := 0
  , status := .matched
  , matchInfo := some ⟨464, 480, "trip_wang.18894"⟩ }

/-- A concrete pending record used to instantiate witnesses. -/
def samplePending : BookingRequest :=
  { passenger_id := "li.42"
  , origin := "Thompson Library"
  , destination := "Ohio Union"
  , earliest_arrival := 480
  , latest_arrival := 510
  , created_at := 0
  , status := .pending
  , matchInfo := none }

/-! ### Claim theorems -/

/-- C2: for every cycle and every booking request, status only moves
forward — a pending request may become matched or expired, while matched
and expired records are terminal for the cycle; in particular no request
transitions from matched back to pending. -/
theorem cycle_status_monotone (m : TravelModel) (now horizon : Int) (seed : Nat)
    (store : List BookingRequest) (i : Nat) :
    forwardStep ((store.getD i default).status)
      (((cycleStep m now horizon seed store).store.getD i default).status) = true := by
  have hstore : (cycleStep m now horizon seed store).store
      = store.map (commitOne (cycleMatches m seed store) now horizon) := rfl
  rw [hstore, List.getD_eq_getElem?_getD, List.getD_eq_getElem?_getD,
    List.getElem?_map]
  cases h : store[i]? with
  | none => rfl
  | some r =>
    simp only [Option.map_some', Option.getD_some]
    exact commitOne_forward _ _ _ r

/-- C3: the engine's search always terminates within the deterministic
generation ceiling, and an in-flight cycle is never cut short before
reaching the ceiling unless the early-stopping rule fired. -/
theorem engine_generation_bounded (m : TravelModel) (seed : Nat)
    (S : List BookingRequest) :
    (engineRun m seed S).gensUsed ≤ generationCeiling
    ∧ ((engineRun m seed S).gensUsed = generationCeiling
        ∨ (engineRun m seed S).early = true) :=
  gaLoop_bound m S generationCeiling (initialPopulation m S)
    (bestOf m S (initialPopulation m S) ((initialPopulation m S).headD []))
    0 seed

/-- C5: `time_between` is a deterministic pure lookup — it returns the
model's (non-negative, `Nat`-valued) duration exactly when both arguments
belong to the fixed location set, fails with `UnknownLocation` exactly
when either argument is outside the set, and the contract permits
asymmetric durations. -/
theorem time_between_contract (m : TravelModel) (a b : String) :
    (∀ d : Nat, time_between m a b = .ok d ↔
      (a ∈ m.locs ∧ b ∈ m.locs ∧ d = m.time a b))
    ∧ (time_between m a b = .error .unknownLocation ↔ (a ∉ m.locs ∨ b ∉ m.locs))
    ∧ (0 ≤ (m.time a b : Int))
    ∧ (∃ (m2 : TravelModel) (x y : String) (d1 d2 : Nat),
        time_between m2 x y = .ok d1 ∧ time_between m2 y x = .ok d2 ∧ d1 ≠ d2) := by
  refine ⟨?_, ?_, Int.ofNat_nonneg _, ⟨asymModel, "A", "B", 10, 20, ?_, ?_, by decide⟩⟩
  · intro d
    by_cases h : a ∈ m.locs ∧ b ∈ m.locs
    · simp [time_between, h, eq_comm]
    · simp [time_between, h]
      tauto
  · by_cases h : a ∈ m.locs ∧ b ∈ m.locs
    · simp [time_between, h]
    · simp [time_between, h]
      tauto
  · rfl
  · rfl

/-- C6: a submission reaches the pending store only after passing intake
validation — origin equal to destination or an unsupported route signals
`invalid_route`, a window whose earliest arrival is not strictly before
its latest signals `invalid_time_range`, an existing active request of
the passenger signals `already_submitted`, and on success exactly one
pending record is appended. -/
theorem submit_intake_validation (m : TravelModel) (store : List BookingRequest)
    (f : SubmitForm) :
    (submit m store f = .error .invalid_route ↔
      (f.origin = f.destination ∨ f.origin ∉ m.locs ∨ f.destination ∉ m.locs))
    ∧ (submit m store f = .error .invalid_time_range ↔
      (¬(f.origin = f.destination ∨ f.origin ∉ m.locs ∨ f.destination ∉ m.locs)
        ∧ ¬ f.earliest_arrival < f.latest_arrival))
    ∧ (submit m store f = .error .already_submitted ↔
      (¬(f.origin = f.destination ∨ f.origin ∉ m.locs ∨ f.destination ∉ m.locs)
        ∧ f.earliest_arrival < f.latest_arrival ∧ hasActive store f.uid = true))
    ∧ (submit m store f = .ok (store ++ [mkRecord f]) ↔
      (¬(f.origin = f.destination ∨ f.origin ∉ m.locs ∨ f.destination ∉ m.locs)
        ∧ f.earliest_arrival < f.latest_arrival ∧ hasActive store f.uid = false))
    ∧ (mkRecord f).status = .pending := by
  by_cases h1 : f.origin = f.destination ∨ f.origin ∉ m.locs ∨ f.destination ∉ m.locs
  · simp [submit, h1, mkRecord]
  · by_cases h2 : f.earliest_arrival < f.latest_arrival
    · by_cases h3 : hasActive store f.uid
      · simp [submit, h1, h2, h3, mkRecord]
      · simp [submit, h1, h2, h3, mkRecord]
    · simp [submit, h1, h2, mkRecord]

/-- C7: the result projection is a pure read-only view — for every
passenger id it renders exactly that passenger's requests (any status)
with their current fields, and on a well-formed store the pickup time,
arrival time and trip reference are populated exactly on matched
records. -/
theorem get_requests_readonly_view (store : List BookingRequest) (pid : String)
    (h : wellFormed store = true) :
    get_requests store pid = (store.filter fun r => r.passenger_id = pid).map viewOf
    ∧ ∀ v ∈ get_requests store pid,
        (v.matched = true ↔ v.pickup_time.isSome = true)
        ∧ (v.matched = true ↔ v.arrive_time.isSome = true)
        ∧ (v.matched = true ↔ v.trip_id.isSome = true) := by
  refine ⟨get_requests_eq_filter_map store pid, ?_⟩
  intro v hv
  rw [get_requests_eq_filter_map] at hv
  obtain ⟨r, hr, rfl⟩ := List.mem_map.1 hv
  have hwf := List.all_eq_true.1 h r (List.mem_filter.1 hr).1
  simp only [decide_eq_true_eq] at hwf
  refine ⟨?_, ?_, ?_⟩ <;> simp [viewOf, Option.isSome_map', hwf]

/-- C7 witness: a two-record store (one matched with trip data, one
pending without) instantiating the projection contract. -/
theorem get_requests_readonly_view_witness :
    wellFormed [sampleMatched, samplePending] = true
    ∧ (get_requests [sampleMatched, samplePending] "wang.18894"
        = ([sampleMatched, samplePending].filter
            fun r => r.passenger_id = "wang.18894").map viewOf) :=
  ⟨by decide,
    (get_requests_readonly_view [sampleMatched, samplePending] "wang.18894"
      (by decide)).1⟩

/-- C4: the delete operation removes the targeted record exactly when its
status is matched; a pending or expired target is rejected with
`invalid_state` and the store is left unchanged. -/
theorem delete_requires_matched (store : List BookingRequest) (pid : String)
    (idx : Nat) (r : BookingRequest)
    (h : (store.filter fun x => x.passenger_id = pid)[idx]? = some r) :
    ((deleteReq store pid idx).1 = .deleted ↔ r.status = .matched)
    ∧ (r.status ≠ .matched → (deleteReq store pid idx).1 = .invalid_state)
    ∧ ((deleteReq store pid idx).1 ≠ .deleted → (deleteReq store pid idx).2 = store)
    ∧ (r.status = .matched →
        ((deleteReq store pid idx).2.filter fun x => x.passenger_id = pid)
          = (store.filter fun x => x.passenger_id = pid).eraseIdx idx) := by
  obtain ⟨h1, h2, h3⟩ := deleteReq_core pid store idx r h
  exact ⟨h1, h2, deleteReq_rejected_unchanged store pid idx, h3⟩

/-- C4 witness: deleting the matched sample record at index 0 succeeds. -/
theorem delete_requires_matched_witness :
    (([sampleMatched].filter fun x => x.passenger_id = "wang.18894")[0]?
        = some sampleMatched)
    ∧ ((deleteReq [sampleMatched] "wang.18894" 0).1 = .deleted
        ↔ sampleMatched.status = .matched) :=
  ⟨by decide,
    (delete_requires_matched [sampleMatched] "wang.18894" 0 sampleMatched
      (by decide)).1⟩

/-- C8: single-flight scheduling — from start-up, at most one matching
cycle is ever in flight, and a timer tick that fires while the scheduler
is not idle is skipped entirely (the state is unchanged, no second cycle
starts). -/
theorem scheduler_single_flight (evs : List SchedEvent) :
    (schedRun evs).activeCycles ≤ 1
    ∧ ((schedRun evs).phase ≠ .idle →
        schedStep (schedRun evs) .tick = schedRun evs) := by
  have h := schedRun_inv evs
  refine ⟨?_, fun hph => schedStep_tick_skip _ hph⟩
  unfold SchedInv at h
  split at h <;> omega

/-- C8 witness: after one tick the scheduler is running and a second tick
is skipped. -/
theorem scheduler_single_flight_witness :
    (schedRun [SchedEvent.tick]).phase ≠ .idle
    ∧ schedStep (schedRun [SchedEvent.tick]) .tick = schedRun [SchedEvent.tick] :=
  ⟨by decide, (scheduler_single_flight [SchedEvent.tick]).2 (by decide)⟩

/-- C10: the query UI's delete targets the passenger id only — the DELETE
URL it issues is built from the account id alone, identical whichever of
the passenger's bookings was clicked, while the local list removes
exactly the clicked entry. -/
theorem delete_ui_targets_uid_only (uid : String) (results : List RequestView)
    (i j : Nat) :
    (deleteRequestAction uid results i).1 = (deleteRequestAction uid results j).1
    ∧ (deleteRequestAction uid results i).1 = "http://127.0.0.1:5001/request/" ++ uid
    ∧ (∀ k, k < i → (deleteRequestAction uid results i).2[k]? = results[k]?)
    ∧ (∀ k, i ≤ k → (deleteRequestAction uid results i).2[k]? = results[k + 1]?) := by
  refine ⟨rfl, rfl, ?_, ?_⟩
  · intro k hk
    exact List.getElem?_eraseIdx_of_lt results i k hk
  · intro k hk
    exact List.getElem?_eraseIdx_of_ge results i k hk

/-- C10 witness: with two displayed bookings, clicking entry 0 or entry 1
issues the same DELETE URL. -/
theorem delete_ui_targets_uid_only_witness :
    (deleteRequestAction "wang.18894" [viewOf sampleMatched, viewOf samplePending] 0).1
      = (deleteRequestAction "wang.18894"
          [viewOf sampleMatched, viewOf samplePending] 1).1
    ∧ (0 : Nat) ≤ 0
    ∧ (deleteRequestAction "wang.18894"
        [viewOf sampleMatched, viewOf samplePending] 0).2[0]?
      = [viewOf sampleMatched, viewOf samplePending][1]? :=
  ⟨(delete_ui_targets_uid_only "wang.18894"
      [viewOf sampleMatched, viewOf samplePending] 0 1).1,
    by decide,
    (delete_ui_targets_uid_only "wang.18894"
      [viewOf sampleMatched, viewOf samplePending] 0 1).2.2.2 0 (by decide)⟩

/-- C1: for every trip committed by a scheduler cycle and every passenger
assigned to it, the computed arrival time lies within the closed interval
from the passenger's earliest to latest acceptable arrival. -/
theorem committed_trip_windows (m : TravelModel) (now horizon : Int) (seed : Nat)
    (store : List BookingRequest) :
    ∀ t ∈ (cycleStep m now horizon seed store).committedTrips,
      ∀ p ∈ t.assignments,
        p.1.earliest_arrival ≤ p.2.arrive_time
        ∧ p.2.arrive_time ≤ p.1.latest_arrival := by
  intro t ht p hp
  exact engineRun_trips_window m seed (cycleSnapshot store) t ht p hp

/-- C9: a snapshot holding exactly one pending request whose own window
is satisfiable for its route is matched as a single-passenger trip within
that one cycle — a feasible solo trip is never rejected for lack of
companions. -/
theorem solo_request_matched_in_one_cycle (m : TravelModel) (now horizon : Int)
    (seed : Nat) (r : BookingRequest) (hpend : r.status = .pending)
    (hf : feasibleGroup m [r] = true) :
    ∀ q ∈ (cycleStep m now horizon seed [r]).store, q.status = .matched := by
  intro q hq
  have hq2 : q = commitOne (cycleMatches m seed [r]) now horizon r := by
    simpa [cycleStep] using hq
  subst hq2
  unfold commitOne
  rw [if_pos hpend]
  have hsnap : cycleSnapshot [r] = [r] := by simp [cycleSnapshot, hpend]
  obtain ⟨t, ht, p, hpt, hpr⟩ := engineRun_matches_solo m seed r hf
  have hpm : p ∈ cycleMatches m seed [r] := by
    unfold cycleMatches
    rw [hsnap]
    exact List.mem_flatten.2 ⟨t.assignments, List.mem_map.2 ⟨t, ht, rfl⟩, hpt⟩
  have hsome : ((cycleMatches m seed [r]).find?
      fun p => p.1.passenger_id = r.passenger_id).isSome :=
    List.find?_isSome.2 ⟨p, hpm, by simp [hpr]⟩
  obtain ⟨y, hy⟩ := Option.isSome_iff_exists.1 hsome
  rw [hy]

/-- The trip the cycle commits for the sample pending request. -/
def sampleTrip : Trip :=
  { trip_id := "trip_li.42"
  , stops := [("Thompson Library", 464), ("Ohio Union", 480)]
  , assignments := [(samplePending, ⟨464, 480, "trip_li.42"⟩)] }

/-- C1 witness: the cycle over the sample store commits `sampleTrip`,
whose single assignment arrives at 480, inside the window 480–510. -/
theorem committed_trip_windows_witness :
    sampleTrip ∈ (cycleStep osuModel 480 60 7 [samplePending]).committedTrips
    ∧ (samplePending, MatchInfo.mk 464 480 "trip_li.42") ∈ sampleTrip.assignments
    ∧ (samplePending.earliest_arrival ≤ (MatchInfo.mk 464 480 "trip_li.42").arrive_time
        ∧ (MatchInfo.mk 464 480 "trip_li.42").arrive_time
          ≤ samplePending.latest_arrival) :=
  ⟨by decide, by decide,
    committed_trip_windows osuModel 480 60 7 [samplePending] sampleTrip (by decide)
      (samplePending, ⟨464, 480, "trip_li.42"⟩) (by decide)⟩

/-- C9 witness: the sample pending request alone in the store is matched
by one cycle. -/
theorem solo_request_matched_in_one_cycle_witness :
    samplePending.status = .pending
    ∧ feasibleGroup osuModel [samplePending] = true
    ∧ ∀ q ∈ (cycleStep osuModel 480 60 7 [samplePending]).store,
        q.status = .matched :=
  ⟨by decide, by decide,
    solo_request_matched_in_one_cycle osuModel 480 60 7 samplePending
      (by decide) (by decide)⟩

end EvoRide
